import Mathlib

/-!
Verification of the tool-call orchestration pipeline of the GLU backend
(`app/route/message.py`, `app/client/httpx.py`) against its natural-language
specification.

Python values flowing through the pipeline are JSON-shaped dictionaries,
lists and scalars; we embed them as an inductive `JSON` type.  Python dicts
are modelled as association lists in insertion order (Python dicts preserve
insertion order; real dicts never hold duplicate keys).  Numbers are
modelled as `Int` (no claim under consideration exercises floats).
Python exceptions are modelled with `Option`/`Except`.
-/

inductive JSON where
  | null
  | bool (b : Bool)
  | num (n : Int)
  | str (s : String)
  | arr (elems : List JSON)
  | obj (fields : List (String × JSON))

namespace JSONModel

/-- Dictionary lookup `d.get(key)` / `d[key]`: first entry with the key. -/
def getKey : List (String × JSON) → String → Option JSON
  | [], _ => none
  | (k, v) :: rest, key => if k = key then some v else getKey rest key

/-- Membership test `key in d`. -/
def hasKey (l : List (String × JSON)) (key : String) : Bool :=
  (getKey l key).isSome

/-- Dictionary assignment `d[key] = val`: replaces the value in place when the
key is present, appends a new entry at the end otherwise (Python dicts keep
insertion order). -/
def setKey : List (String × JSON) → String → JSON → List (String × JSON)
  | [], key, val => [(key, val)]
  | (k, v) :: rest, key, val =>
      if k = key then (k, val) :: rest else (k, v) :: setKey rest key val

/-- Lookup on a JSON value known to be a dict (`hit.get(k)`); `none` both when
the key is absent and when the value is not a dict. -/
def jget (j : JSON) (key : String) : Option JSON :=
  match j with
  | .obj fields => getKey fields key
  | _ => none

/-- Python truthiness of a JSON value (`if function_def:` etc.). -/
def jtruthy : JSON → Bool
  | .null => false
  | .bool b => b
  | .num n => n != 0
  | .str s => s != ""
  | .arr l => !l.isEmpty
  | .obj l => !l.isEmpty

/-! ## Result Sanitizer — `clean_tool_result` (message.py lines 478-521)

The source truncates any list to its first 10 elements, recurses, and drops
any resulting string value that contains no space character and is longer
than 50 characters from its containing dict or list. -/

/-- Predicate behind both drop sites in `clean_tool_result`:
`isinstance(x, str) and (" " not in x) and len(x) > 50`.  Containment of the
space character is phrased over the character list (same as
`String.contains`, but kernel-reducible). -/
def isLongToken : JSON → Bool
  | .str s => !(s.data.contains ' ') && s.length > 50
  | _ => false

mutual

/-- Embedding of `clean_tool_result` (message.py lines 478-521). -/
def clean_tool_result : JSON → JSON
  | .obj fields => .obj (cleanFields fields)
  | .arr l => .arr (cleanElems (l.take 10))
  | x => x
termination_by j => sizeOf j
decreasing_by
  all_goals simp_wf
  all_goals (first
    | omega
    | (have ht : ∀ (n : Nat) (xs : List JSON), sizeOf (xs.take n) ≤ sizeOf xs := by
         intro n xs
         induction xs generalizing n with
         | nil => simp [List.take]
         | cons h t ih =>
           cases n with
           | zero => simp [List.take]; omega
           | succ m =>
             simp only [List.take, List.cons.sizeOf_spec]
             have := ih m
             omega
       have := ht 10 l
       omega))

/-- Dict branch: clean each value, dropping keys whose cleaned value is a long
single-word string. -/
def cleanFields : List (String × JSON) → List (String × JSON)
  | [] => []
  | (k, v) :: rest =>
      let nv := clean_tool_result v
      if isLongToken nv then cleanFields rest else (k, nv) :: cleanFields rest
termination_by l => sizeOf l
decreasing_by
  all_goals simp_wf
  all_goals omega

/-- List branch: clean each item of the (already truncated) list, dropping
items that clean to a long single-word string. -/
def cleanElems : List JSON → List JSON
  | [] => []
  | x :: rest =>
      let nx := clean_tool_result x
      if isLongToken nx then cleanElems rest else nx :: cleanElems rest
termination_by l => sizeOf l
decreasing_by
  all_goals simp_wf
  all_goals omega

end

/-! ## Python comparison semantics

`ensure_schema_defaults` calls Python's `sorted` on `schema["required"]` and
compares the outcome with `sorted(keys)` using list `!=`.  We embed `==`,
`<` and `sorted` for JSON-shaped values; `none` models a raised `TypeError`. -/

/-- Numeric view used by Python comparisons: ints, with `bool` coerced
(`False == 0`, `True == 1`). -/
def pyNum : JSON → Option Int
  | .num n => some n
  | .bool b => some (if b then 1 else 0)
  | _ => none

mutual

/-- Python `==` on JSON-shaped values: numeric coercion between bool and int,
elementwise on lists, never raising.  Dicts are compared structurally here
(order-sensitive), whereas Python dict `==` ignores insertion order; the
divergence only matters for dicts nested inside a `required` list. -/
def pyEq (a b : JSON) : Bool :=
  match pyNum a, pyNum b with
  | some x, some y => x == y
  | _, _ =>
    match a, b with
    | .null, .null => true
    | .str s, .str t => s == t
    | .arr xs, .arr ys => pyEqList xs ys
    | .obj xs, .obj ys => pyEqFields xs ys
    | _, _ => false
termination_by sizeOf a
decreasing_by
  all_goals simp_wf
  all_goals omega

/-- Python list `==`: pointwise, same length. -/
def pyEqList : List JSON → List JSON → Bool
  | [], [] => true
  | x :: xs, y :: ys => pyEq x y && pyEqList xs ys
  | _, _ => false
termination_by l _ => sizeOf l
decreasing_by
  all_goals simp_wf
  all_goals omega

/-- Structural dict comparison (see `pyEq`). -/
def pyEqFields : List (String × JSON) → List (String × JSON) → Bool
  | [], [] => true
  | (k, v) :: xs, (k2, v2) :: ys => k == k2 && pyEq v v2 && pyEqFields xs ys
  | _, _ => false
termination_by l _ => sizeOf l
decreasing_by
  all_goals simp_wf
  all_goals omega

end

mutual

/-- Python `<` on JSON-shaped values: ints/bools numerically, strings by code
points, lists lexicographically; any other pairing is a `TypeError` (`none`). -/
def pyLt (a b : JSON) : Option Bool :=
  match pyNum a, pyNum b with
  | some x, some y => some (decide (x < y))
  | _, _ =>
    match a, b with
    | .str s, .str t => some (decide (s < t))
    | .arr xs, .arr ys => pyListLt xs ys
    | _, _ => none
termination_by sizeOf a
decreasing_by
  all_goals simp_wf
  all_goals omega

/-- Python list `<`: skip `==` pairs, then compare the first differing pair;
a strict prefix is smaller. -/
def pyListLt : List JSON → List JSON → Option Bool
  | [], [] => some false
  | [], _ :: _ => some true
  | _ :: _, [] => some false
  | x :: xs, y :: ys => if pyEq x y then pyListLt xs ys else pyLt x y
termination_by l _ => sizeOf l
decreasing_by
  all_goals simp_wf
  all_goals omega

end

/-- Total-order view Python's sort uses: `a` may precede `b` unless `b < a`. -/
def pyLe (a b : JSON) : Bool := !(pyLt b a == some true)

/-- Every pair of elements is comparable under Python `<`. -/
def pyComparable (l : List JSON) : Bool :=
  l.all fun a => l.all fun b => (pyLt a b).isSome

/-- Python `sorted` on a list: a stable sort by `<`; raises (`none`) when some
pair of elements is incomparable.  (CPython's Timsort may skip comparing a
particular incomparable pair in larger lists; we conservatively require full
comparability, which agrees with Python on all realistic `required` values.) -/
def pySort (l : List JSON) : Option (List JSON) :=
  if pyComparable l then some (l.mergeSort pyLe) else none

/-- Python `sorted(x)` for a JSON value `x`: lists sort their elements,
strings sort their characters, dicts sort their keys; other values are not
iterable (`TypeError`). -/
def sortedJSON : JSON → Option (List JSON)
  | .arr l => pySort l
  | .str s => pySort (s.data.map fun c => .str (String.mk [c]))
  | .obj fields => pySort (fields.map fun p => .str p.1)
  | _ => none

/-- Condition `"required" not in schema or sorted(schema["required"]) != sorted(keys)`
(message.py line 130); `none` models a `TypeError` escaping from `sorted`. -/
def requiredMismatch (fields : List (String × JSON)) (keys : List String) : Option Bool :=
  match getKey fields "required" with
  | none => some true
  | some req =>
    match sortedJSON req with
    | none => none
    | some l => some (!pyEqList l ((keys.map JSON.str).mergeSort pyLe))

mutual

/-- Embedding of `ensure_schema_defaults` (message.py lines 111-136) as a pure
transform (the Python function mutates `schema` in place).  `none` models an
uncaught `TypeError` raised by `sorted` on an exotic `required` value.
`"properties"` and `"required"` are read from the original field list; this is
equivalent to the source, which reads them after setting only the distinct
`additionalProperties` key. -/
def ensure_schema_defaults (schema : JSON) : Option JSON :=
  match schema with
  | .obj fields =>
    match getKey fields "type" with
    | some (.str "object") =>
      let fields1 := if hasKey fields "additionalProperties" then fields
        else setKey fields "additionalProperties" (.bool false)
      match hp : getKey fields "properties" with
      | some (.obj props) =>
        let keys := props.map Prod.fst
        match requiredMismatch fields keys with
        | none => none
        | some mismatch =>
          let fields2 := if mismatch
            then setKey fields1 "required" (.arr (keys.map JSON.str))
            else fields1
          match ensureProps props with
          | none => none
          | some props1 => some (.obj (setKey fields2 "properties" (.obj props1)))
      | _ => some (.obj fields1)
    | some (.str "array") =>
      match hi : getKey fields "items" with
      | some items =>
        match ensure_schema_defaults items with
        | none => none
        | some items1 => some (.obj (setKey fields "items" items1))
      | none => some (.obj fields)
    | _ => some (.obj fields)
  | x => some x
termination_by sizeOf schema
decreasing_by
  all_goals simp_wf
  all_goals
    (have hg : ∀ (xs : List (String × JSON)) (k : String) (v : JSON),
        getKey xs k = some v → sizeOf v < sizeOf xs := by
       intro xs k v h
       induction xs with
       | nil => simp [getKey] at h
       | cons p rest ih =>
         obtain ⟨k1, v1⟩ := p
         simp only [getKey] at h
         by_cases hk : k1 = k
         · simp [hk] at h
           subst h
           simp
           omega
         · simp [hk] at h
           have := ih h
           simp
           omega)
  · have := hg fields "properties" (.obj props) hp
    simp at this
    omega
  · have := hg fields "items" items hi
    omega

/-- Recursion of `ensure_schema_defaults` into every property schema. -/
def ensureProps : List (String × JSON) → Option (List (String × JSON))
  | [] => some []
  | (k, v) :: rest =>
    match ensure_schema_defaults v with
    | none => none
    | some v1 =>
      match ensureProps rest with
      | none => none
      | some rest1 => some ((k, v1) :: rest1)
termination_by l => sizeOf l
decreasing_by
  all_goals simp_wf
  all_goals omega

end

/-! ## Dynamic Tool Invoker response handling — `ToolHttpClient.send_tool_call`
(httpx.py lines 71-88)

After the HTTP response arrives, `send_tool_call` parses the body and returns
a plain value in every case; exceptions only propagate from the transport
itself (connectivity failures), which are outside this function's body. -/

structure HttpResponse where
  status : Nat
  body : Option JSON
  text : String

/-- Any 2xx status code (`200 <= response.status_code < 300`). -/
def is2xx (n : Nat) : Bool := 200 ≤ n && n < 300

/-- Embedding of the response-handling tail of `send_tool_call` (httpx.py
lines 73-88).  `resp.body` is `response.json()`; `none` models the
`ValueError` raised on an unparseable or empty body. -/
def handleToolResponse (resp : HttpResponse) : JSON :=
  match resp.body with
  | some data =>
    if is2xx resp.status then data
    else .obj [("status", .str "error"), ("message", .str resp.text)]
  | none =>
    if is2xx resp.status then
      .obj [("status", .str "success"), ("message", .str "empty response")]
    else
      .obj [("status", .str "error"),
        ("message", .str ("Invalid JSON response: " ++
          (if resp.text = "" then "<empty response>" else resp.text)))]

/-! ## Catalog preparation — `prepare_tool_list` (message.py lines 139-168) -/

/-- Shape check standing in for pydantic validation of `Function(**function_def)`
(types/response.py lines 95-113): a string `type`, and a `function` dict with
string `name`/`description`, dict `parameters` and boolean `strict` (optional
with default; extra keys are ignored by pydantic's default config). -/
def validFunctionShape (fd : List (String × JSON)) : Bool :=
  (match getKey fd "type" with | some (.str _) => true | _ => false)
  && (match getKey fd "function" with
      | some (.obj t) =>
        (match getKey t "name" with | some (.str _) => true | _ => false)
        && (match getKey t "description" with | some (.str _) => true | _ => false)
        && (match getKey t "parameters" with | some (.obj _) => true | _ => false)
        && (match getKey t "strict" with
            | some (.bool _) => true | none => true | _ => false)
      | _ => false)

/-- Processing of one hit inside `prepare_tool_list`: `.ok none` when the hit
carries no truthy dict `function` definition (skipped silently), `.error` when
one of the uncaught exceptions of the source body would be raised. -/
def prepareHit (hit : JSON) : Except String (Option JSON) :=
  match jget hit "function" with
  | some (.obj fdf) =>
    if fdf.isEmpty then .ok none
    else
      match getKey fdf "function" with
      | some (.obj inner) =>
        let inner1 := setKey inner "strict" (.bool true)
        let step : Except String (List (String × JSON)) :=
          match getKey inner1 "parameters" with
          | some p =>
            if jtruthy p then
              match ensure_schema_defaults p with
              | none => .error "TypeError: unorderable types in sorted()"
              | some p1 => .ok (setKey inner1 "parameters" p1)
            else .ok inner1
          | none => .ok inner1
        match step with
        | .error e => .error e
        | .ok inner2 =>
          let fd1 := setKey fdf "function" (.obj inner2)
          if validFunctionShape fd1 then .ok (some (.obj fd1))
          else .error "ValidationError: Function"
      | some _ => .error "TypeError: strict assignment on non-dict"
      | none => .error "KeyError: function"
  | _ => .ok none

/-- Embedding of `prepare_tool_list` (message.py lines 139-168). -/
def prepare_tool_list : List JSON → Except String (List JSON)
  | [] => .ok []
  | hit :: rest =>
    match prepareHit hit with
    | .error e => .error e
    | .ok none => prepare_tool_list rest
    | .ok (some fd1) =>
      match prepare_tool_list rest with
      | .error e => .error e
      | .ok tl => .ok (fd1 :: tl)

/-! ## Association Resolver — `process_association_tool_call`
(message.py lines 171-238) and the association loop of `update_conversation`
(message.py lines 310-336) -/

mutual

/-- Deterministic rendering of a JSON value, standing in for `json.dumps` /
`str`.  No claim inspects rendered text, so whitespace and escaping fidelity
to Python is not modelled. -/
def dumpsModel : JSON → String
  | .null => "null"
  | .bool b => if b then "true" else "false"
  | .num n => toString n
  | .str s => "\x22" ++ s ++ "\x22"
  | .arr l => "[" ++ String.intercalate "," (dumpsList l) ++ "]"
  | .obj f => "\x7b" ++ String.intercalate "," (dumpsFieldList f) ++ "\x7d"
termination_by j => sizeOf j
decreasing_by
  all_goals simp_wf
  all_goals omega

/-- Renders each element of a JSON array. -/
def dumpsList : List JSON → List String
  | [] => []
  | x :: rest => dumpsModel x :: dumpsList rest
termination_by l => sizeOf l
decreasing_by
  all_goals simp_wf
  all_goals omega

/-- Renders each entry of a JSON object. -/
def dumpsFieldList : List (String × JSON) → List String
  | [] => []
  | (k, v) :: rest => ("\x22" ++ k ++ "\x22:" ++ dumpsModel v) :: dumpsFieldList rest
termination_by l => sizeOf l
decreasing_by
  all_goals simp_wf
  all_goals omega

end

/-- The assistant message content built by `process_association_tool_call`
(message.py line 237). -/
def assocContent (toolName : String) (fieldName : JSON) (result : JSON) : String :=
  "Here is the result of the " ++ toolName ++ " for the " ++ dumpsModel fieldName
    ++ " field: \n" ++ dumpsModel result

/-- A tool call chosen by the LLM (`tool_calls[0]`): its id, function name,
raw `arguments` string and the outcome of `json.loads(arguments)` (`.error`
models a `JSONDecodeError`). -/
structure ToolChoice where
  id : String
  name : String
  rawArgs : String
  parsedArgs : Except String JSON

/-- Outcome of one `process_association_tool_call` run: `noMessage` models a
`None` return, `httpError` a raised `HTTPException`, `fatal` any other raised
exception (e.g. `json.loads` failure), which the caller's
`except HTTPException` does not catch. -/
inductive AssocResult where
  | noMessage
  | message (m : JSON)
  | httpError (status : Nat) (detail : String)
  | fatal (e : String)

/-- Embedding of `process_association_tool_call` (message.py lines 171-238).
External effects enter as data: `parentHits` is the limit-1 search result for
the parent tool name, `llmToolCall` the first tool call of the secondary LLM
response (`none` when it declines), `setup` the outcome of
`setup_tool_client` (`.error` = raised `HTTPException (status, detail)`), and
`exec` the outcome of `send_tool_call` (`.error` = raised exception).  The
second component records every `send_tool_call` invocation made. -/
def process_association_tool_call
    (parentHits : List JSON)
    (llmToolCall : Option ToolChoice)
    (setup : Except (Nat × String) Unit)
    (exec : String → JSON → Except String JSON)
    (fieldName : JSON) : AssocResult × List (String × JSON) :=
  if parentHits.isEmpty then (.noMessage, [])
  else
    match prepare_tool_list parentHits with
    | .error e => (.fatal e, [])
    | .ok _ =>
      match llmToolCall with
      | none => (.noMessage, [])
      | some tc =>
        match tc.parsedArgs with
        | .error e => (.fatal e, [])
        | .ok args =>
          match setup with
          | .error (code, detail) => (.httpError code detail, [])
          | .ok _ =>
            match exec tc.name args with
            | .error e =>
              (.httpError 500 ("Failed to execute tool \x27" ++ tc.name ++ "\x27: " ++ e),
               [(tc.name, args)])
            | .ok r =>
              (.message (.obj [("role", .str "assistant"),
                 ("content", .str (assocContent tc.name fieldName (clean_tool_result r)))]),
               [(tc.name, args)])

/-- Python `for` iteration over a JSON value: lists yield elements, strings
characters, dicts keys; other values raise `TypeError`. -/
def pyIter : JSON → Except String (List JSON)
  | .arr l => .ok l
  | .str s => .ok (s.data.map fun c => .str (String.mk [c]))
  | .obj f => .ok (f.map fun p => .str p.1)
  | _ => .error "TypeError: not iterable"

/-- Python membership `x in l` (list `in` uses `==`). -/
def pyContains (l : List JSON) (x : JSON) : Bool := l.any (pyEq x)

/-- Association `.get(k)` on an association entry: associations are dicts in
real data, anything else raises `AttributeError`. -/
def assocField (a : JSON) (key : String) : Except String JSON :=
  match a with
  | .obj f => .ok ((getKey f key).getD .null)
  | _ => .error "AttributeError: get"

/-- Mutable state of the association loop of `update_conversation`:
accumulated messages, the `completed_tools` memo list, and a log of every
resolution attempt (each call made to `process_association_tool_call`). -/
structure AssocState where
  messages : List JSON
  completed : List JSON
  callLog : List (JSON × JSON)

/-- Inner association loop of `update_conversation` (message.py lines
310-336) over one hit's association list.  `resolve` abstracts
`process_association_tool_call` for a given parent name and field name.
A `fatal` outcome propagates (only `HTTPException` is caught there). -/
def runAssocList (resolve : JSON → JSON → AssocResult) (st : AssocState) :
    List JSON → Except String AssocState
  | [] => .ok st
  | a :: rest =>
    match assocField a "parent_tool_name" with
    | .error e => .error e
    | .ok parent =>
      match assocField a "field_name" with
      | .error e => .error e
      | .ok fld =>
        if pyContains st.completed parent then runAssocList resolve st rest
        else
          let st1 : AssocState := { st with callLog := st.callLog ++ [(parent, fld)] }
          match resolve parent fld with
          | .message m =>
            runAssocList resolve
              { st1 with messages := st1.messages ++ [m],
                         completed := st1.completed ++ [parent] } rest
          | .noMessage => runAssocList resolve st1 rest
          | .httpError _ _ => runAssocList resolve st1 rest
          | .fatal e => .error e

/-- Outer association loop of `update_conversation` over all search hits
(message.py lines 293-336; the WRITE bookkeeping of the same loop is the
separate, order-independent `write_tools`). -/
def runAssocHits (resolve : JSON → JSON → AssocResult) (st : AssocState) :
    List JSON → Except String AssocState
  | [] => .ok st
  | hit :: rest =>
    match pyIter ((jget hit "associations").getD (.arr [])) with
    | .error e => .error e
    | .ok l =>
      match runAssocList resolve st l with
      | .error e => .error e
      | .ok st1 => runAssocHits resolve st1 rest

/-! ## Conversation Orchestrator — `update_conversation`
(message.py lines 241-475) -/

/-- The WRITE set collected by the hit loop of `update_conversation`
(message.py lines 293-304): names of hits whose `action` is `"WRITE"`
(defaulting to `"READ"` when absent). -/
def write_tools (hits : List JSON) : List JSON :=
  hits.filterMap fun h =>
    if pyEq ((jget h "action").getD (.str "READ")) (.str "WRITE")
    then some ((jget h "name").getD .null)
    else none

/-- The user message appended before offering tools (message.py lines
341-346 and 198-204). -/
def mainUserContent (date content : String) : String :=
  "Here is the current date: " ++ date ++ " and this is the user input: " ++ content

/-- The fixed summarization instruction (message.py lines 455-460). -/
def summaryInstruction : String :=
  "Can you clean up this data that was in the tool call result and give me a summary of the data? Generally, choose markdown, and output only valid markdown. Use markdown tables for lists, and only show columns that are relevant to the user - no id\x27s, created_at, etc. Just titles, descriptions, content, important links, etc."

/-- The assistant message echoing the executed tool call (message.py lines
428-443). -/
def assistantToolCallMsg (tc : ToolChoice) : JSON :=
  .obj [("role", .str "assistant"), ("content", .null),
    ("tool_calls", .arr [.obj [("id", .str tc.id), ("type", .str "function"),
      ("function", .obj [("name", .str tc.name), ("arguments", .str tc.rawArgs)])]])]

/-- The verification payload returned for a WRITE-classified tool call
(message.py lines 383-395). -/
structure PendingPayload where
  toolCallId : String
  toolName : String
  arguments : JSON
  toolHit : JSON
  messages : List JSON

/-- Terminal outcome of a conversation turn: the LLM's direct response (no
tool chosen), a `verification_required` payload, the degraded error
completion built after a failed execution, the summarization call (carrying
the messages sent to it), or an HTTP error response. -/
inductive TurnOutcome where
  | llmDirect
  | verificationRequired (p : PendingPayload)
  | degraded (toolName : String) (err : String)
  | summarized (messages : List JSON)
  | httpError (status : Nat) (detail : String)

/-- A turn outcome together with the tool invocations (`send_tool_call`) and
tool-client setups (`setup_tool_client`, by hit) performed directly by the
main turn (sub-calls made inside association resolution are internal to
`resolve`). -/
structure TurnTrace where
  outcome : TurnOutcome
  invocations : List (String × JSON)
  setupHits : List JSON

/-- Embedding of `update_conversation` from the search results onward
(message.py lines 286-473); the earlier steps (user-integration filter,
embedding, hybrid search) only produce `hits` and are external I/O.
`resolve` abstracts `process_association_tool_call`, `mainChoice` is the
first tool call of the offering LLM response (`none` when no tool is
chosen), `setup`/`exec` the outcomes of `setup_tool_client`/`send_tool_call`.
The enclosing `except Exception` turns any uncaught exception into an HTTP
500.  In the source, `prepare_tool_list` mutates the hits' `function`
definitions in place; the payload here carries the pre-normalization hit,
which agrees with the source on every key the claims mention. -/
def update_conversation
    (hits : List JSON)
    (resolve : JSON → JSON → AssocResult)
    (mainChoice : Option ToolChoice)
    (setup : JSON → Except (Nat × String) Unit)
    (exec : String → JSON → Except String JSON)
    (date : String) (lastUserContent : String) : TurnTrace :=
  match runAssocHits resolve ⟨[], [], []⟩ hits with
  | .error e =>
    ⟨.httpError 500 ("An unexpected error occurred during chat completion: " ++ e), [], []⟩
  | .ok st =>
    match prepare_tool_list hits with
    | .error e =>
      ⟨.httpError 500 ("An unexpected error occurred during chat completion: " ++ e), [], []⟩
    | .ok _ =>
      let messages := st.messages ++
        [.obj [("role", .str "user"), ("content", .str (mainUserContent date lastUserContent))]]
      match mainChoice with
      | none => ⟨.llmDirect, [], []⟩
      | some tc =>
        let writeFlag := pyContains (write_tools hits) (.str tc.name)
        match tc.parsedArgs with
        | .error e =>
          ⟨.httpError 500 ("An unexpected error occurred during chat completion: " ++ e), [], []⟩
        | .ok args =>
          match hits with
          | [] =>
            ⟨.httpError 500
              "An unexpected error occurred during chat completion: list index out of range",
             [], []⟩
          | h0 :: _ =>
            if writeFlag then
              ⟨.verificationRequired ⟨tc.id, tc.name, args, h0, messages⟩, [], []⟩
            else
              match setup h0 with
              | .error (_, d) =>
                ⟨.httpError 500 ("An unexpected error occurred during chat completion: " ++ d),
                 [], [h0]⟩
              | .ok _ =>
                match exec tc.name args with
                | .error e =>
                  ⟨.degraded tc.name
                     ("Failed to execute tool \x27" ++ tc.name ++ "\x27: " ++ e),
                   [(tc.name, args)], [h0]⟩
                | .ok r =>
                  let messages1 := messages ++
                    [assistantToolCallMsg tc,
                     .obj [("role", .str "tool"), ("tool_call_id", .str tc.id),
                           ("content", .str (dumpsModel (clean_tool_result r)))],
                     .obj [("role", .str "user"), ("content", .str summaryInstruction)]]
                  ⟨.summarized messages1, [(tc.name, args)], [h0]⟩

/-! ## Confirmation endpoint — `confirm_tool_call` (message.py lines 524-632) -/

/-- A confirm-endpoint outcome together with the `send_tool_call` invocations
made (name value and arguments) and the hits passed to `setup_tool_client`. -/
structure ConfirmTrace where
  outcome : TurnOutcome
  invocations : List (JSON × JSON)
  setupHits : List JSON

/-- Embedding of `confirm_tool_call` (message.py lines 524-632).  The request
fields arrive pydantic-validated (`tool_call` and `tool_hit` dicts, `messages`
a list of dicts).  `setup`/`exec` are the outcomes of
`setup_tool_client`/`send_tool_call`; `summarizeOk` is whether the final
OpenAI call succeeds.  Note the source validates `messages` only after the
tool call has been executed. -/
def confirm_tool_call
    (toolHit : JSON) (toolCall : List (String × JSON)) (updatedArguments : JSON)
    (messages : List JSON)
    (setup : JSON → Except (Nat × String) Unit)
    (exec : JSON → JSON → Except String JSON)
    (summarizeOk : Bool) : ConfirmTrace :=
  let toolName := (getKey toolCall "tool_name").getD .null
  match setup toolHit with
  | .error (c, d) => ⟨.httpError c d, [], [toolHit]⟩
  | .ok _ =>
    match exec toolName updatedArguments with
    | .error e =>
      ⟨.degraded (dumpsModel toolName)
         ("Failed to execute tool \x27" ++ dumpsModel toolName ++ "\x27: " ++ e),
       [(toolName, updatedArguments)], [toolHit]⟩
    | .ok r =>
      let cleaned := clean_tool_result r
      match messages with
      | [] => ⟨.httpError 400 "No conversation messages provided.",
               [(toolName, updatedArguments)], [toolHit]⟩
      | m0 :: _ =>
        if (jget m0 "role").isNone then
          ⟨.httpError 400
             "Invalid conversation messages: the first message must include a valid \x27role\x27.",
           [(toolName, updatedArguments)], [toolHit]⟩
        else
          let messages1 := messages ++
            [.obj [("role", .str "assistant"), ("content", .null),
               ("tool_calls", .arr [.obj
                 [("id", (getKey toolCall "id").getD .null), ("type", .str "function"),
                  ("function", .obj [("name", toolName),
                     ("arguments", .str (dumpsModel updatedArguments))])]])],
             .obj [("role", .str "tool"),
                   ("tool_call_id", (getKey toolCall "id").getD .null),
                   ("content", .str (dumpsModel cleaned))],
             .obj [("role", .str "assistant"),
                   ("content", .str ("Here is the result of the tool call: \n" ++ dumpsModel cleaned))],
             .obj [("role", .str "user"), ("content", .str summaryInstruction)]]
          if summarizeOk then ⟨.summarized messages1, [(toolName, updatedArguments)], [toolHit]⟩
          else ⟨.httpError 500 "An error occurred while processing the conversation.",
                [(toolName, updatedArguments)], [toolHit]⟩

/-! ## Concrete instances used by counterexamples and witnesses -/

/-- A 51-character single-word string (dropped by the sanitizer). -/
def longToken51 : String := String.mk (List.replicate 51 'a')

/-- Whether a JSON value is a dict. -/
def isObj : JSON → Bool
  | .obj _ => true
  | _ => false

/-- Whether a hit's `associations` value (if any) is a list of dicts, the
shape produced by the catalog. -/
def assocsWellFormed (hit : JSON) : Bool :=
  match jget hit "associations" with
  | none => true
  | some (.arr l) => l.all isObj
  | some _ => false

/-- Input fields of the amended-C5 witness schema. -/
def fieldsC5w : List (String × JSON) :=
  [("type", .str "object"), ("properties", .obj [("a", .obj [])])]

/-- Normalizer output on `fieldsC5w`. -/
def outC5w : JSON :=
  .obj [("type", .str "object"), ("properties", .obj [("a", .obj [])]),
    ("additionalProperties", .bool false), ("required", .arr [.str "a"])]

/-- A WRITE-classified search hit (no `function` field: the catalog
preparation skips it silently). -/
def hitC1w : JSON := .obj [("name", .str "send_message"), ("action", .str "WRITE")]

/-- The LLM's choice of the WRITE tool above. -/
def tcC1w : ToolChoice := ⟨"call_1", "send_message", "", .ok (.obj [("text", .str "hi")])⟩

/-- Limit-1 parent search result used in the C2 scenario. -/
def parentHitC2 : JSON := .obj [("name", .str "list_channels")]

/-- Secondary-LLM tool choice used in the C2 scenario. -/
def tcC2 : ToolChoice := ⟨"call_2", "list_channels", "", .ok (.obj [])⟩

/-- A main-turn hit declaring one association on `list_channels`. -/
def hitC2 : JSON :=
  .obj [("associations", .arr [.obj [("parent_tool_name", .str "list_channels"),
    ("field_name", .str "channel")]])]

/-- A hit whose two associations name the same parent tool. -/
def hitC3 : JSON :=
  .obj [("associations", .arr [
    .obj [("parent_tool_name", .str "p"), ("field_name", .str "f1")],
    .obj [("parent_tool_name", .str "p"), ("field_name", .str "f2")]])]

/-- Limit-1 parent search result whose hit is WRITE-classified. -/
def parentHitC8 : JSON := .obj [("name", .str "send_message"), ("action", .str "WRITE")]

/-- Secondary-LLM tool choice of that WRITE tool. -/
def tcC8 : ToolChoice := ⟨"call_8", "send_message", "", .ok (.obj [("text", .str "yo")])⟩

/-- A WRITE-classified hit for the C9 witness. -/
def hitC9w : JSON := .obj [("name", .str "tool_w"), ("action", .str "WRITE")]

/-- The LLM's choice of `tool_w`. -/
def tcC9w : ToolChoice := ⟨"call_9", "tool_w", "", .ok (.obj [])⟩

/-- The verification payload produced in the C9 witness scenario. -/
def pC9w : PendingPayload :=
  ⟨"call_9", "tool_w", .obj [], hitC9w,
    [.obj [("role", .str "user"), ("content", .str (mainUserContent "d" "u"))]]⟩

/-- Tool hit used by the C10 witness. -/
def hitC10w : JSON := .obj [("api_name", .str "slack"), ("base_url", .str "slack.com")]

/-- Pending tool call used by the C10 witness. -/
def toolCallC10w : List (String × JSON) := [("id", .str "call_10"), ("tool_name", .str "send_message")]

/-! # Theorems

Helper lemmas first, then one theorem per claim (with witnesses and
counterexamples as required). -/

theorem getKey_setKey_self (l : List (String × JSON)) (k : String) (v : JSON) :
    getKey (setKey l k v) k = some v := by
  induction l with
  | nil => simp [setKey, getKey]
  | cons p rest ih =>
    obtain ⟨k1, v1⟩ := p
    by_cases hk : k1 = k
    · simp [setKey, hk, getKey]
    · simp [setKey, hk, getKey, ih]

theorem getKey_setKey_ne (l : List (String × JSON)) (k k' : String) (v : JSON)
    (h : k' ≠ k) : getKey (setKey l k' v) k = getKey l k := by
  induction l with
  | nil => simp [setKey, getKey, h]
  | cons p rest ih =>
    obtain ⟨k1, v1⟩ := p
    by_cases hk : k1 = k'
    · subst hk
      simp [setKey, getKey, h]
    · simp only [setKey, if_neg hk, getKey]
      by_cases hk2 : k1 = k
      · simp [hk2]
      · simp [hk2, ih]

theorem setKey_eq_self (l : List (String × JSON)) (k : String) (v : JSON)
    (h : getKey l k = some v) : setKey l k v = l := by
  induction l with
  | nil => simp [getKey] at h
  | cons p rest ih =>
    obtain ⟨k1, v1⟩ := p
    simp only [getKey] at h
    by_cases hk : k1 = k
    · simp only [hk, if_pos rfl] at h
      obtain rfl : v1 = v := by injection h
      simp [setKey, hk]
    · simp only [if_neg hk] at h
      simp [setKey, hk, ih h]

theorem cleanElems_length_le (l : List JSON) : (cleanElems l).length ≤ l.length := by
  induction l with
  | nil => simp [cleanElems]
  | cons x rest ih =>
    simp only [cleanElems]
    split
    · simp only [List.length_cons]
      omega
    · simp only [List.length_cons]
      omega

theorem cleanElems_length_eq (l : List JSON)
    (h : ∀ x ∈ l, isLongToken (clean_tool_result x) = false) :
    (cleanElems l).length = l.length := by
  induction l with
  | nil => simp [cleanElems]
  | cons x rest ih =>
    have hx := h x (by simp)
    have hrest : ∀ y ∈ rest, isLongToken (clean_tool_result y) = false :=
      fun y hy => h y (by simp [hy])
    simp [cleanElems, hx, ih hrest]

/-- C4 is false as stated: the sanitizer also drops long single-word strings
from arrays, so an array of one 51-character token cleans to an empty array,
whose length 0 differs from `min 1 10 = 1`. -/
theorem c4_counterexample :
    clean_tool_result (.arr [.str longToken51]) = .arr ([] : List JSON) ∧
      ([] : List JSON).length ≠ min ([JSON.str longToken51] : List JSON).length 10 := by
  constructor
  · have h1 : isLongToken (.str longToken51) = true := by decide
    simp [clean_tool_result, List.take, cleanElems, h1]
  · simp

/-- C4 (amended): for every array of length `N` reaching the sanitizer, the
output array has length at most `min N 10`, with equality exactly when none of
the first `min N 10` elements cleans to a whitespace-free string longer than
50 characters (such elements are dropped after truncation). -/
theorem c4_amended_array_truncation (l m : List JSON)
    (h : clean_tool_result (.arr l) = .arr m) :
    m.length ≤ min l.length 10 ∧
      ((∀ x ∈ l.take 10, isLongToken (clean_tool_result x) = false) →
        m.length = min l.length 10) := by
  rw [clean_tool_result] at h
  obtain rfl : cleanElems (l.take 10) = m := by injection h
  have htake : (l.take 10).length = min 10 l.length := List.length_take 10 l
  constructor
  · have := cleanElems_length_le (l.take 10)
    omega
  · intro hnone
    have := cleanElems_length_eq (l.take 10) hnone
    omega

/-- Witness for the amended C4 at a concrete input: a singleton array of a
short value is preserved, with length `min 1 10`. -/
theorem c4_witness :
    ([JSON.num 1] : List JSON).length ≤ min ([JSON.num 1] : List JSON).length 10 := by
  have h := c4_amended_array_truncation [JSON.num 1] [JSON.num 1] (by
    simp [clean_tool_result, cleanElems, List.take, isLongToken])
  exact h.1

/-- C7 is false as stated: for a 2xx response with a parseable JSON body the
code returns the parsed body itself rather than a `{status, payload}`
envelope — at status 200 with body `{"a": 1}` the returned value is exactly
that body and carries no `status` key at all. -/
theorem c7_counterexample :
    handleToolResponse ⟨200, some (.obj [("a", .num 1)]), "raw"⟩ = .obj [("a", .num 1)] ∧
      jget (handleToolResponse ⟨200, some (.obj [("a", .num 1)]), "raw"⟩) "status" = none := by
  constructor
  · simp [handleToolResponse, is2xx]
  · simp [handleToolResponse, is2xx, jget, getKey]

/-- C7 (amended): whenever the HTTP response arrives, `send_tool_call` returns
a plain value: a 2xx status with parseable body returns the parsed body
itself (no envelope); any non-2xx status returns a dict with
`status = "error"` (payload under the `message` key); a 2xx status with an
unparseable/empty body returns the synthetic success envelope
`{status: "success", message: "empty response"}`. -/
theorem c7_amended_response_handling (resp : HttpResponse) :
    (∀ d, resp.body = some d → is2xx resp.status = true → handleToolResponse resp = d) ∧
    (is2xx resp.status = false →
      jget (handleToolResponse resp) "status" = some (.str "error")) ∧
    (resp.body = none → is2xx resp.status = true →
      handleToolResponse resp =
        .obj [("status", .str "success"), ("message", .str "empty response")]) := by
  obtain ⟨st, b, t⟩ := resp
  refine ⟨?_, ?_, ?_⟩
  · rintro d rfl h2
    simp [handleToolResponse, h2]
  · intro h2
    cases b with
    | none => simp [handleToolResponse, h2, jget, getKey]
    | some d => simp [handleToolResponse, h2, jget, getKey]
  · rintro rfl h2
    simp [handleToolResponse, h2]

/-- Witness for the amended C7: a 200 response with body `5` returns the raw
body, and a 404 response returns an error-status dict. -/
theorem c7_witness :
    handleToolResponse ⟨200, some (.num 5), ""⟩ = .num 5 ∧
      jget (handleToolResponse ⟨404, some (.num 5), "missing"⟩) "status" =
        some (.str "error") := by
  constructor
  · exact (c7_amended_response_handling ⟨200, some (.num 5), ""⟩).1 (.num 5) rfl (by decide)
  · exact (c7_amended_response_handling ⟨404, some (.num 5), "missing"⟩).2.1 (by decide)

/-- C5 is false as stated: with properties `{b, a}` (insertion order) and a
pre-existing `additionalProperties: true`, normalization sets `required` to
the keys in insertion order `[b, a]` (not sorted) and leaves
`additionalProperties` as `true` (it is only set when absent). -/
theorem c5_counterexample :
    ensure_schema_defaults (.obj [("type", .str "object"),
        ("additionalProperties", .bool true),
        ("properties", .obj [("b", .obj []), ("a", .obj [])])]) =
      some (.obj [("type", .str "object"), ("additionalProperties", .bool true),
        ("properties", .obj [("b", .obj []), ("a", .obj [])]),
        ("required", .arr [.str "b", .str "a"])]) ∧
      (JSON.arr [.str "b", .str "a"] = JSON.arr [.str "a", .str "b"] → False) ∧
      (JSON.bool true = JSON.bool false → False) := by
  refine ⟨?_, ?_, ?_⟩
  · simp [ensure_schema_defaults, ensureProps, requiredMismatch, getKey, hasKey, setKey]
  · intro h
    simp at h
  · intro h
    simp at h

/-- C5 (amended): for an object node with a properties dict, normalization
sets `additionalProperties` to `false` only when it was absent (an existing
value is preserved verbatim), and whenever the mismatch test fires (no prior
`required`, or one whose sorted form differs from the sorted key list) it sets
`required` to the property keys in their original insertion order. -/
theorem c5_amended_schema_defaults
    (fields props : List (String × JSON)) (out : JSON)
    (htype : getKey fields "type" = some (.str "object"))
    (hprops : getKey fields "properties" = some (.obj props))
    (hout : ensure_schema_defaults (.obj fields) = some out) :
    (getKey fields "additionalProperties" = none →
       jget out "additionalProperties" = some (.bool false)) ∧
    (∀ v, getKey fields "additionalProperties" = some v →
       jget out "additionalProperties" = some v) ∧
    (requiredMismatch fields (props.map Prod.fst) = some true →
       jget out "required" = some (.arr ((props.map Prod.fst).map JSON.str))) := by
  rw [ensure_schema_defaults] at hout
  split at hout
  rotate_left
  · rename_i heq
    rw [htype] at heq
    simp at heq
  · rename_i hno _
    exact absurd htype hno
  · simp only at hout
    split at hout
    rotate_left
    · rename_i hno
      exact absurd hprops (hno props)
    · rename_i props0 heqp
      have hpp : props = props0 := by
        rw [hprops] at heqp
        simpa using heqp
      subst hpp
      cases hrm : requiredMismatch fields (props.map Prod.fst) with
      | none => rw [hrm] at hout; simp at hout
      | some mismatch =>
        rw [hrm] at hout
        cases hep : ensureProps props with
        | none => rw [hep] at hout; simp at hout
        | some props1 =>
          rw [hep] at hout
          simp only [Option.some.injEq] at hout
          subst hout
          refine ⟨?_, ?_, ?_⟩
          · intro hap
            have hk : hasKey fields "additionalProperties" = false := by
              simp [hasKey, hap]
            cases mismatch with
            | true => simp [jget, hk, getKey_setKey_ne, getKey_setKey_self]
            | false => simp [jget, hk, getKey_setKey_ne, getKey_setKey_self]
          · intro v hap
            have hk : hasKey fields "additionalProperties" = true := by
              simp [hasKey, hap]
            cases mismatch with
            | true => simp [jget, hk, getKey_setKey_ne, hap]
            | false => simp [jget, hk, hap, getKey_setKey_ne]
          · intro hreq
            obtain rfl : mismatch = true := by simpa using hreq
            simp [jget, getKey_setKey_ne, getKey_setKey_self]

/-- Witness for the amended C5 at a concrete schema: `additionalProperties`
was absent and becomes `false`; `required` becomes the key list `["a"]`. -/
theorem c5_witness :
    jget outC5w "additionalProperties" = some (.bool false) ∧
      jget outC5w "required" = some (.arr [.str "a"]) := by
  have h := c5_amended_schema_defaults fieldsC5w [("a", .obj [])] outC5w
    (by simp [fieldsC5w, getKey])
    (by simp [fieldsC5w, getKey])
    (by simp [ensure_schema_defaults, fieldsC5w, outC5w, requiredMismatch, getKey,
      hasKey, setKey, ensureProps])
  refine ⟨h.1 (by simp [fieldsC5w, getKey]), ?_⟩
  have h3 := h.2.2 (by simp [requiredMismatch, fieldsC5w, getKey])
  simpa using h3

/-- C1 (confirmed): whenever the offering LLM chooses a tool whose name is in
the WRITE set collected from the hits, the turn returns the
`verification_required` payload and stops: no `setup_tool_client` and no
`send_tool_call` happens in the offering/execution phase of the turn (the
chosen write is never auto-executed). -/
theorem c1_write_tool_requires_verification
    (hits : List JSON) (h0 : JSON) (t : List JSON)
    (resolve : JSON → JSON → AssocResult) (tc : ToolChoice)
    (setup : JSON → Except (Nat × String) Unit)
    (exec : String → JSON → Except String JSON) (date content : String)
    (hhits : hits = h0 :: t)
    (hassoc : (runAssocHits resolve ⟨[], [], []⟩ hits).isOk = true)
    (hprep : (prepare_tool_list hits).isOk = true)
    (hargs : tc.parsedArgs.isOk = true)
    (hwrite : pyContains (write_tools hits) (.str tc.name) = true) :
    ∃ p, update_conversation hits resolve (some tc) setup exec date content =
        ⟨.verificationRequired p, [], []⟩ ∧
      p.toolName = tc.name ∧ p.toolHit = h0 := by
  subst hhits
  cases hst : runAssocHits resolve ⟨[], [], []⟩ (h0 :: t) with
  | error e => rw [hst] at hassoc; simp [Except.isOk, Except.toBool] at hassoc
  | ok st =>
    cases hpr : prepare_tool_list (h0 :: t) with
    | error e => rw [hpr] at hprep; simp [Except.isOk, Except.toBool] at hprep
    | ok tl =>
      cases ha : tc.parsedArgs with
      | error e => rw [ha] at hargs; simp [Except.isOk, Except.toBool] at hargs
      | ok args =>
        have key : update_conversation (h0 :: t) resolve (some tc) setup exec date content =
            ⟨.verificationRequired ⟨tc.id, tc.name, args, h0,
              st.messages ++ [.obj [("role", .str "user"),
                ("content", .str (mainUserContent date content))]]⟩, [], []⟩ := by
          simp [update_conversation, hst, hpr, ha, hwrite]
        exact ⟨_, key, rfl, rfl⟩

/-- Witness for C1: a concrete WRITE-classified hit chosen by the LLM yields
a paused turn with no tool-client setup and no invocation. -/
theorem c1_witness :
    (update_conversation [hitC1w] (fun _ _ => .noMessage) (some tcC1w)
        (fun _ => .ok ()) (fun _ _ => .ok .null) "2025-01-01" "send hi").invocations = [] ∧
    (update_conversation [hitC1w] (fun _ _ => .noMessage) (some tcC1w)
        (fun _ => .ok ()) (fun _ _ => .ok .null) "2025-01-01" "send hi").setupHits = [] := by
  obtain ⟨p, hp, -, -⟩ := c1_write_tool_requires_verification [hitC1w] hitC1w []
    (fun _ _ => .noMessage) tcC1w (fun _ => .ok ()) (fun _ _ => .ok .null)
    "2025-01-01" "send hi" rfl
    (by simp [runAssocHits, runAssocList, pyIter, jget, getKey, hitC1w, Except.isOk,
      Except.toBool])
    (by simp [prepare_tool_list, prepareHit, jget, getKey, hitC1w, Except.isOk,
      Except.toBool])
    (by simp [tcC1w, Except.isOk, Except.toBool])
    (by simp [write_tools, pyContains, pyEq, pyNum, jget, getKey, hitC1w, tcC1w])
  rw [hp]
  exact ⟨rfl, rfl⟩

/-- C8 (confirmed): in the association sub-turn, once the secondary LLM
chooses a tool, `process_association_tool_call` invokes it against the remote
API immediately: this holds for arbitrary parent hits — including hits the
catalog classifies as WRITE — because the resolver never consults the
read/write classification and has no confirmation outcome; the result is
either the folded assistant message or an HTTP 500 from a failed execution,
never a pause. -/
theorem c8_association_executes_unconditionally
    (parentHits : List JSON) (tc : ToolChoice) (args : JSON) (fld : JSON)
    (exec : String → JSON → Except String JSON)
    (hne : parentHits.isEmpty = false)
    (hprep : (prepare_tool_list parentHits).isOk = true)
    (hargs : tc.parsedArgs = .ok args) :
    (process_association_tool_call parentHits (some tc) (.ok ()) exec fld).2 =
        [(tc.name, args)] ∧
      ((∃ m, (process_association_tool_call parentHits (some tc) (.ok ()) exec fld).1 =
          .message m) ∨
       (∃ d, (process_association_tool_call parentHits (some tc) (.ok ()) exec fld).1 =
          .httpError 500 d)) := by
  cases hpr : prepare_tool_list parentHits with
  | error e => rw [hpr] at hprep; simp [Except.isOk, Except.toBool] at hprep
  | ok tl =>
    cases hex : exec tc.name args with
    | error e =>
      have h2 : process_association_tool_call parentHits (some tc) (.ok ()) exec fld =
          (.httpError 500 ("Failed to execute tool \x27" ++ tc.name ++ "\x27: " ++ e),
           [(tc.name, args)]) := by
        simp [process_association_tool_call, hne, hpr, hargs, hex]
      rw [h2]
      exact ⟨rfl, .inr ⟨_, rfl⟩⟩
    | ok r =>
      have h2 : process_association_tool_call parentHits (some tc) (.ok ()) exec fld =
          (.message (.obj [("role", .str "assistant"),
             ("content", .str (assocContent tc.name fld (clean_tool_result r)))]),
           [(tc.name, args)]) := by
        simp [process_association_tool_call, hne, hpr, hargs, hex]
      rw [h2]
      exact ⟨rfl, .inl ⟨_, rfl⟩⟩

/-- Witness for C8: a WRITE-classified parent hit still gets its chosen tool
executed by the association resolver. -/
theorem c8_witness :
    (process_association_tool_call [parentHitC8] (some tcC8) (.ok ())
        (fun _ _ => .ok .null) (.str "channel")).2 =
      [("send_message", .obj [("text", .str "yo")])] := by
  exact (c8_association_executes_unconditionally [parentHitC8] tcC8
    (.obj [("text", .str "yo")]) (.str "channel") (fun _ _ => .ok .null)
    rfl
    (by simp [prepare_tool_list, prepareHit, jget, getKey, parentHitC8, Except.isOk,
      Except.toBool])
    rfl).1

/-- C9 (confirmed): the tool-client configuration and the pending-write
payload always use `results.hits[0]`: every hit passed to
`setup_tool_client` by the main turn is the first search hit, and every
`verification_required` payload carries the first search hit, regardless of
which hit's tool the LLM selected. -/
theorem c9_first_hit_used
    (hits : List JSON) (h0 : JSON) (t : List JSON)
    (resolve : JSON → JSON → AssocResult) (mc : Option ToolChoice)
    (setup : JSON → Except (Nat × String) Unit)
    (exec : String → JSON → Except String JSON) (date content : String)
    (hhits : hits = h0 :: t) :
    (∀ p, (update_conversation hits resolve mc setup exec date content).outcome =
        .verificationRequired p → p.toolHit = h0) ∧
    (∀ x ∈ (update_conversation hits resolve mc setup exec date content).setupHits,
      x = h0) := by
  subst hhits
  cases hst : runAssocHits resolve ⟨[], [], []⟩ (h0 :: t) with
  | error e => simp [update_conversation, hst]
  | ok st =>
    cases hpr : prepare_tool_list (h0 :: t) with
    | error e => simp [update_conversation, hst, hpr]
    | ok tl =>
      cases mc with
      | none => simp [update_conversation, hst, hpr]
      | some tc =>
        cases ha : tc.parsedArgs with
        | error e => simp [update_conversation, hst, hpr, ha]
        | ok args =>
          by_cases hw : pyContains (write_tools (h0 :: t)) (.str tc.name) = true
          · constructor
            · intro p hp
              simp [update_conversation, hst, hpr, ha, hw] at hp
              rw [← hp]
            · simp [update_conversation, hst, hpr, ha, hw]
          · rw [Bool.not_eq_true] at hw
            cases hs : setup h0 with
            | error pr =>
              obtain ⟨c, d⟩ := pr
              simp [update_conversation, hst, hpr, ha, hw, hs]
            | ok u =>
              cases hex : exec tc.name args with
              | error e => simp [update_conversation, hst, hpr, ha, hw, hs, hex]
              | ok r => simp [update_conversation, hst, hpr, ha, hw, hs, hex]

/-- Witness for C9: in a concrete WRITE scenario the pending payload carries
the first (and only) hit. -/
theorem c9_witness : pC9w.toolHit = hitC9w := by
  exact (c9_first_hit_used [hitC9w] hitC9w [] (fun _ _ => .noMessage) (some tcC9w)
      (fun _ => .ok ()) (fun _ _ => .ok .null) "d" "u" rfl).1 pC9w (by
    simp [update_conversation, runAssocHits, runAssocList, pyIter, jget, getKey,
      prepare_tool_list, prepareHit, hitC9w, tcC9w, write_tools, pyContains, pyEq,
      pyNum, pC9w, mainUserContent])

/-- C10 (confirmed): the confirm endpoint executes the tool call before
validating the messages list: with a reachable execution (setup and call
succeed), an empty messages list or a first message without a `role` key
still produces the outbound invocation, and only afterwards the 400 error. -/
theorem c10_exec_before_validation
    (toolHit : JSON) (toolCall : List (String × JSON)) (updatedArguments : JSON)
    (messages : List JSON)
    (setup : JSON → Except (Nat × String) Unit)
    (exec : JSON → JSON → Except String JSON) (summarizeOk : Bool) (r : JSON)
    (hsetup : setup toolHit = .ok ())
    (hexec : exec ((getKey toolCall "tool_name").getD .null) updatedArguments = .ok r)
    (hbad : messages = [] ∨ ∃ m0 ms, messages = m0 :: ms ∧ jget m0 "role" = none) :
    ∃ d, confirm_tool_call toolHit toolCall updatedArguments messages setup exec
        summarizeOk =
      ⟨.httpError 400 d,
       [((getKey toolCall "tool_name").getD .null, updatedArguments)], [toolHit]⟩ := by
  rcases hbad with rfl | ⟨m0, ms, rfl, hrole⟩
  · refine ⟨"No conversation messages provided.", ?_⟩
    simp [confirm_tool_call, hsetup, hexec]
  · refine ⟨"Invalid conversation messages: the first message must include a valid \x27role\x27.", ?_⟩
    simp [confirm_tool_call, hsetup, hexec, hrole]

/-- Witness for C10: with an empty messages list the invocation still happens
against the provided hit, and the endpoint then returns a 400. -/
theorem c10_witness :
    (confirm_tool_call hitC10w toolCallC10w (.obj []) [] (fun _ => .ok ())
        (fun _ _ => .ok .null) true).invocations = [(.str "send_message", .obj [])] ∧
    (confirm_tool_call hitC10w toolCallC10w (.obj []) [] (fun _ => .ok ())
        (fun _ _ => .ok .null) true).setupHits = [hitC10w] := by
  obtain ⟨d, hd⟩ := c10_exec_before_validation hitC10w toolCallC10w (.obj []) []
    (fun _ => .ok ()) (fun _ _ => .ok .null) true .null rfl rfl (Or.inl rfl)
  rw [hd]
  constructor
  · simp [toolCallC10w, getKey]
  · rfl

theorem pyEq_str_refl (s : String) : pyEq (.str s) (.str s) = true := by
  simp [pyEq, pyNum]

theorem pyEq_str_right {x : JSON} {s : String} (h : pyEq x (.str s) = true) :
    x = .str s := by
  cases x <;> simp [pyEq, pyNum] at h <;> simp [h]

theorem pyContains_append_right (l : List JSON) (x y : JSON)
    (h : pyContains l x = true) : pyContains (l ++ [y]) x = true := by
  simp only [pyContains, List.any_append, Bool.or_eq_true]
  exact Or.inl (by simpa [pyContains] using h)

theorem pyContains_append_self (l : List JSON) (s : String) :
    pyContains (l ++ [.str s]) (.str s) = true := by
  simp only [pyContains, List.any_append, Bool.or_eq_true]
  right
  simp [pyEq_str_refl]

theorem runAssocList_httpError_preserves
    (resolve : JSON → JSON → AssocResult)
    (hres : ∀ p f, ∃ d, resolve p f = .httpError 500 d) :
    ∀ (l : List JSON) (st : AssocState), (∀ a ∈ l, isObj a = true) →
      ∃ st', runAssocList resolve st l = .ok st' ∧
        st'.messages = st.messages ∧ st'.completed = st.completed := by
  intro l
  induction l with
  | nil => intro st _; exact ⟨st, rfl, rfl, rfl⟩
  | cons a rest ih =>
    intro st hwf
    have ha := hwf a (by simp)
    have hrest : ∀ x ∈ rest, isObj x = true := fun x hx => hwf x (by simp [hx])
    cases a <;> simp [isObj] at ha
    rename_i fl
    by_cases hc : pyContains st.completed ((getKey fl "parent_tool_name").getD .null) = true
    · obtain ⟨st', h1, h2, h3⟩ := ih st hrest
      exact ⟨st', by simp [runAssocList, assocField, hc, h1], h2, h3⟩
    · rw [Bool.not_eq_true] at hc
      obtain ⟨d, hd⟩ := hres ((getKey fl "parent_tool_name").getD .null)
        ((getKey fl "field_name").getD .null)
      obtain ⟨st', h1, h2, h3⟩ := ih
        { st with callLog := st.callLog ++
            [((getKey fl "parent_tool_name").getD .null,
              (getKey fl "field_name").getD .null)] } hrest
      exact ⟨st', by simp [runAssocList, assocField, hc, hd, h1],
        by simpa using h2, by simpa using h3⟩

theorem runAssocHits_httpError_preserves
    (resolve : JSON → JSON → AssocResult)
    (hres : ∀ p f, ∃ d, resolve p f = .httpError 500 d) :
    ∀ (hits : List JSON) (st : AssocState),
      (∀ hit ∈ hits, assocsWellFormed hit = true) →
      ∃ st', runAssocHits resolve st hits = .ok st' ∧
        st'.messages = st.messages ∧ st'.completed = st.completed := by
  intro hits
  induction hits with
  | nil => intro st _; exact ⟨st, rfl, rfl, rfl⟩
  | cons hit rest ih =>
    intro st hwf
    have hw := hwf hit (by simp)
    have hrest : ∀ x ∈ rest, assocsWellFormed x = true := fun x hx => hwf x (by simp [hx])
    rw [assocsWellFormed] at hw
    cases hj : jget hit "associations" with
    | none =>
      rw [hj] at hw
      obtain ⟨st', h1, h2, h3⟩ := ih st hrest
      exact ⟨st', by simp [runAssocHits, hj, pyIter, runAssocList, h1], h2, h3⟩
    | some v =>
      rw [hj] at hw
      cases v <;> simp at hw
      rename_i l
      obtain ⟨st1, hA, hA2, hA3⟩ := runAssocList_httpError_preserves resolve hres l st hw
      obtain ⟨st', h1, h2, h3⟩ := ih st1 hrest
      refine ⟨st', by simp [runAssocHits, hj, pyIter, hA, h1], ?_, ?_⟩
      · rw [h2, hA2]
      · rw [h3, hA3]

/-- C2 is false as stated: a failing sub-tool execution makes
`process_association_tool_call` raise an HTTP 500, but the enclosing turn
catches the `HTTPException` in its association loop and continues: with the
main LLM declining a tool, the very turn whose prerequisite call failed still
completes as a normal direct response. -/
theorem c2_counterexample :
    (process_association_tool_call [parentHitC2] (some tcC2) (.ok ())
        (fun _ _ => .error "boom") (.str "channel")).1 =
      .httpError 500 ("Failed to execute tool \x27" ++ "list_channels" ++ "\x27: " ++ "boom") ∧
    (update_conversation [hitC2]
        (fun _ fld => (process_association_tool_call [parentHitC2] (some tcC2) (.ok ())
          (fun _ _ => .error "boom") fld).1)
        none (fun _ => .ok ()) (fun _ _ => .ok .null) "d" "u").outcome = .llmDirect := by
  exact ⟨rfl, rfl⟩

/-- C2 (amended): a failing sub-tool execution does surface as an
`HTTPException` (HTTP 500) raised inside `process_association_tool_call`, but
`update_conversation` catches `HTTPException` in its association loop and the
turn continues: when every resolution raises an HTTP error the loop still
completes (with no association message accumulated), and a turn whose main
LLM response chooses no tool ends in the normal direct response. -/
theorem c2_amended_http_error_swallowed
    (hits : List JSON) (resolve : JSON → JSON → AssocResult)
    (setup : JSON → Except (Nat × String) Unit)
    (exec : String → JSON → Except String JSON) (date content : String)
    (hwf : ∀ hit ∈ hits, assocsWellFormed hit = true)
    (hres : ∀ p f, ∃ d, resolve p f = .httpError 500 d)
    (hprep : (prepare_tool_list hits).isOk = true) :
    (∃ st', runAssocHits resolve ⟨[], [], []⟩ hits = .ok st' ∧ st'.messages = []) ∧
    (update_conversation hits resolve none setup exec date content).outcome =
      .llmDirect := by
  obtain ⟨st', h1, h2, h3⟩ :=
    runAssocHits_httpError_preserves resolve hres hits ⟨[], [], []⟩ hwf
  refine ⟨⟨st', h1, h2⟩, ?_⟩
  cases hpr : prepare_tool_list hits with
  | error e => rw [hpr] at hprep; simp [Except.isOk, Except.toBool] at hprep
  | ok tl => simp [update_conversation, h1, hpr]

/-- Witness for the amended C2: with a concrete association whose resolution
always raises HTTP 500, the turn still completes as a direct response. -/
theorem c2_witness :
    (update_conversation [hitC2] (fun _ _ => .httpError 500 "boom") none
        (fun _ => .ok ()) (fun _ _ => .ok .null) "d" "u").outcome = .llmDirect := by
  exact (c2_amended_http_error_swallowed [hitC2] (fun _ _ => .httpError 500 "boom")
    (fun _ => .ok ()) (fun _ _ => .ok .null) "d" "u"
    (by intro hit hh
        simp only [List.mem_singleton] at hh
        subst hh
        simp [assocsWellFormed, jget, getKey, hitC2, isObj])
    (fun p f => ⟨"boom", rfl⟩)
    (by simp [prepare_tool_list, prepareHit, jget, getKey, hitC2, Except.isOk,
      Except.toBool])).2

/-- C3 is false as stated: with two associations referencing the same parent
tool in one turn, when resolution yields no message (`None` return) the
parent is not memoized and the resolution is attempted again for the second
field: the call log records two attempts for `"p"`. -/
theorem c3_counterexample :
    (match runAssocHits (fun _ _ => .noMessage) ⟨[], [], []⟩ [hitC3] with
      | .ok st => st.callLog
      | .error _ => []) =
      [(.str "p", .str "f1"), (.str "p", .str "f2")] ∧ (2 : Nat) ≠ 1 := by
  exact ⟨rfl, by decide⟩

theorem runAssocList_memo (resolve : JSON → JSON → AssocResult) (s : String)
    (hsucc : ∀ f, ∃ m, resolve (.str s) f = .message m) :
    ∀ (l : List JSON) (st st' : AssocState),
      runAssocList resolve st l = .ok st' →
      ((st.callLog.countP fun c => pyEq c.1 (.str s)) ≤ 1 ∧
        ((st.callLog.countP fun c => pyEq c.1 (.str s)) = 1 →
          pyContains st.completed (.str s) = true)) →
      ((st'.callLog.countP fun c => pyEq c.1 (.str s)) ≤ 1 ∧
        ((st'.callLog.countP fun c => pyEq c.1 (.str s)) = 1 →
          pyContains st'.completed (.str s) = true)) := by
  intro l
  induction l with
  | nil =>
    intro st st' hrun hinv
    rw [runAssocList] at hrun
    obtain rfl : st = st' := by injection hrun
    exact hinv
  | cons a rest ih =>
    intro st st' hrun hinv
    rw [runAssocList] at hrun
    cases hpa : assocField a "parent_tool_name" with
    | error e => simp only [hpa] at hrun; simp at hrun
    | ok parent =>
      simp only [hpa] at hrun
      cases hpf : assocField a "field_name" with
      | error e => simp only [hpf] at hrun; simp at hrun
      | ok fld =>
        simp only [hpf] at hrun
        by_cases hc : pyContains st.completed parent = true
        · rw [if_pos hc] at hrun
          exact ih st st' hrun hinv
        · rw [if_neg hc] at hrun
          by_cases hps : pyEq parent (.str s) = true
          · obtain rfl := pyEq_str_right hps
            obtain ⟨m, hm⟩ := hsucc fld
            simp only [hm] at hrun
            have hcnt0 : (st.callLog.countP fun c => pyEq c.1 (.str s)) = 0 := by
              by_contra hne
              have h1 : (st.callLog.countP fun c => pyEq c.1 (.str s)) = 1 := by
                have := hinv.1
                omega
              exact hc (hinv.2 h1)
            apply ih _ _ hrun
            constructor
            · simp [List.countP_append, List.countP_cons, hcnt0, pyEq_str_refl]
            · intro _
              simpa using pyContains_append_self st.completed s
          · rw [Bool.not_eq_true] at hps
            have hkeep : ((st.callLog ++ [(parent, fld)]).countP
                fun c => pyEq c.1 (.str s)) =
                st.callLog.countP fun c => pyEq c.1 (.str s) := by
              simp [List.countP_append, List.countP_cons, hps]
            cases hr : resolve parent fld with
            | noMessage =>
              simp only [hr] at hrun
              apply ih _ _ hrun
              refine ⟨?_, ?_⟩
              · simpa [hkeep] using hinv.1
              · intro h1
                simp only [hkeep] at h1
                simpa using hinv.2 (by simpa using h1)
            | httpError c d =>
              simp only [hr] at hrun
              apply ih _ _ hrun
              refine ⟨?_, ?_⟩
              · simpa [hkeep] using hinv.1
              · intro h1
                simp only [hkeep] at h1
                simpa using hinv.2 (by simpa using h1)
            | message m =>
              simp only [hr] at hrun
              apply ih _ _ hrun
              refine ⟨?_, ?_⟩
              · simpa [hkeep] using hinv.1
              · intro h1
                simp only at h1
                have h1' : (st.callLog.countP fun c => pyEq c.1 (.str s)) = 1 := by
                  simpa [hkeep] using h1
                have := hinv.2 h1'
                simpa using pyContains_append_right st.completed (.str s) parent this
            | fatal e => simp only [hr] at hrun; simp at hrun

theorem runAssocHits_memo (resolve : JSON → JSON → AssocResult) (s : String)
    (hsucc : ∀ f, ∃ m, resolve (.str s) f = .message m) :
    ∀ (hits : List JSON) (st st' : AssocState),
      runAssocHits resolve st hits = .ok st' →
      ((st.callLog.countP fun c => pyEq c.1 (.str s)) ≤ 1 ∧
        ((st.callLog.countP fun c => pyEq c.1 (.str s)) = 1 →
          pyContains st.completed (.str s) = true)) →
      ((st'.callLog.countP fun c => pyEq c.1 (.str s)) ≤ 1 ∧
        ((st'.callLog.countP fun c => pyEq c.1 (.str s)) = 1 →
          pyContains st'.completed (.str s) = true)) := by
  intro hits
  induction hits with
  | nil =>
    intro st st' hrun hinv
    rw [runAssocHits] at hrun
    obtain rfl : st = st' := by injection hrun
    exact hinv
  | cons hit rest ih =>
    intro st st' hrun hinv
    rw [runAssocHits] at hrun
    cases hpi : pyIter ((jget hit "associations").getD (.arr [])) with
    | error e => simp only [hpi] at hrun; simp at hrun
    | ok l =>
      simp only [hpi] at hrun
      cases hrl : runAssocList resolve st l with
      | error e => simp only [hrl] at hrun; simp at hrun
      | ok st1 =>
        simp only [hrl] at hrun
        exact ih st1 st' hrun (runAssocList_memo resolve s hsucc l st st1 hrl hinv)

/-- C3 (amended): a parent tool name is resolved at most once per turn only
after a resolution has succeeded: the loop memoizes a parent in
`completed_tools` exactly when `process_association_tool_call` returned a
message, so when resolution for that parent always succeeds, the whole-turn
call log contains at most one attempt for it; resolutions that return no
message (or raise) are retried for later fields naming the same parent. -/
theorem c3_amended_memoized_after_success
    (resolve : JSON → JSON → AssocResult) (s : String) (hits : List JSON)
    (st' : AssocState)
    (hsucc : ∀ f, ∃ m, resolve (.str s) f = .message m)
    (hrun : runAssocHits resolve ⟨[], [], []⟩ hits = .ok st') :
    (st'.callLog.countP fun c => pyEq c.1 (.str s)) ≤ 1 := by
  refine (runAssocHits_memo resolve s hsucc hits ⟨[], [], []⟩ st' hrun ⟨?_, ?_⟩).1
  · simp
  · intro h
    simp at h

/-- Witness for the amended C3: with the same duplicated association but an
always-succeeding resolver, the parent is attempted only once. -/
theorem c3_witness :
    (match runAssocHits
        (fun p _ => if pyEq p (.str "p") then .message (.str "m") else .noMessage)
        ⟨[], [], []⟩ [hitC3] with
      | .ok st => st.callLog.countP (fun c => pyEq c.1 (.str "p"))
      | .error _ => 99) ≤ 1 := by
  have hrun : runAssocHits
      (fun p _ => if pyEq p (.str "p") then .message (.str "m") else .noMessage)
      ⟨[], [], []⟩ [hitC3] =
      .ok ⟨[.str "m"], [.str "p"], [(.str "p", .str "f1")]⟩ := by
    simp [runAssocHits, runAssocList, pyIter, jget, getKey, hitC3, assocField,
      pyContains, pyEq, pyNum]
  rw [hrun]
  exact c3_amended_memoized_after_success
    (fun p _ => if pyEq p (.str "p") then .message (.str "m") else .noMessage)
    "p" [hitC3] ⟨[.str "m"], [.str "p"], [(.str "p", .str "f1")]⟩
    (fun f => ⟨.str "m", by simp [pyEq_str_refl]⟩) hrun

theorem getKey_sizeOf_lt {l : List (String × JSON)} {k : String} {v : JSON}
    (h : getKey l k = some v) : sizeOf v < sizeOf l := by
  induction l with
  | nil => simp [getKey] at h
  | cons p rest ih =>
    obtain ⟨k1, v1⟩ := p
    simp only [getKey] at h
    by_cases hk : k1 = k
    · simp [hk] at h
      subst h
      simp
      omega
    · simp only [if_neg hk] at h
      have := ih h
      simp
      omega

theorem sizeOf_snd_lt_of_mem {l : List (String × JSON)} {k : String} {v : JSON}
    (h : (k, v) ∈ l) : sizeOf v < sizeOf l := by
  induction l with
  | nil => simp at h
  | cons p rest ih =>
    rcases List.mem_cons.mp h with h1 | h1
    · obtain rfl := h1.symm
      simp
      omega
    · have := ih h1
      simp
      omega

theorem ensureProps_fst :
    ∀ {props props1 : List (String × JSON)}, ensureProps props = some props1 →
      props1.map Prod.fst = props.map Prod.fst := by
  intro props
  induction props with
  | nil =>
    intro props1 h
    simp only [ensureProps, Option.some.injEq] at h
    subst h
    rfl
  | cons p rest ih =>
    intro props1 h
    obtain ⟨k, v⟩ := p
    simp only [ensureProps] at h
    cases he : ensure_schema_defaults v with
    | none => simp only [he] at h; simp at h
    | some v1 =>
      simp only [he] at h
      cases hr : ensureProps rest with
      | none => simp only [hr] at h; simp at h
      | some rest1 =>
        simp only [hr, Option.some.injEq] at h
        subst h
        simp [ih hr]

theorem ensureProps_idem :
    ∀ {props props1 : List (String × JSON)},
      (∀ k v, (k, v) ∈ props → ∀ t, ensure_schema_defaults v = some t →
        ensure_schema_defaults t = some t) →
      ensureProps props = some props1 → ensureProps props1 = some props1 := by
  intro props
  induction props with
  | nil =>
    intro props1 _ h
    simp only [ensureProps, Option.some.injEq] at h
    subst h
    simp [ensureProps]
  | cons p rest ih =>
    intro props1 hpt h
    obtain ⟨k, v⟩ := p
    simp only [ensureProps] at h
    cases he : ensure_schema_defaults v with
    | none => simp only [he] at h; simp at h
    | some v1 =>
      simp only [he] at h
      cases hr : ensureProps rest with
      | none => simp only [hr] at h; simp at h
      | some rest1 =>
        simp only [hr, Option.some.injEq] at h
        subst h
        have hv1 : ensure_schema_defaults v1 = some v1 := hpt k v (by simp) v1 he
        have hr1 : ensureProps rest1 = some rest1 :=
          ih (fun k' v' hm t ht => hpt k' v' (by simp [hm]) t ht) hr
        simp [ensureProps, hv1, hr1]

theorem pyEqList_refl_str {l : List JSON}
    (h : ∀ x ∈ l, ∃ s, x = JSON.str s) : pyEqList l l = true := by
  induction l with
  | nil => simp [pyEqList]
  | cons x rest ih =>
    obtain ⟨s, rfl⟩ := h x (by simp)
    simp [pyEqList, pyEq_str_refl, ih (fun y hy => h y (by simp [hy]))]

theorem pyComparable_str {l : List JSON}
    (h : ∀ x ∈ l, ∃ s, x = JSON.str s) : pyComparable l = true := by
  simp only [pyComparable, List.all_eq_true]
  intro a ha b hb
  obtain ⟨s1, rfl⟩ := h a ha
  obtain ⟨s2, rfl⟩ := h b hb
  simp [pyLt, pyNum]

theorem requiredMismatch_keysArr (fieldsX : List (String × JSON)) (keys : List String)
    (hreq : getKey fieldsX "required" = some (.arr (keys.map JSON.str))) :
    requiredMismatch fieldsX keys = some false := by
  rw [requiredMismatch, hreq]
  have hcomp : pyComparable (keys.map JSON.str) = true := by
    apply pyComparable_str
    intro x hx
    simp only [List.mem_map] at hx
    obtain ⟨s, -, rfl⟩ := hx
    exact ⟨s, rfl⟩
  have hrefl : pyEqList ((keys.map JSON.str).mergeSort pyLe)
      ((keys.map JSON.str).mergeSort pyLe) = true := by
    apply pyEqList_refl_str
    intro x hx
    have hx' : x ∈ keys.map JSON.str := List.mem_mergeSort.mp hx
    simp only [List.mem_map] at hx'
    obtain ⟨s, -, rfl⟩ := hx'
    exact ⟨s, rfl⟩
  simp [sortedJSON, pySort, hcomp, hrefl]

theorem requiredMismatch_congr (fieldsA fieldsB : List (String × JSON)) (keys : List String)
    (h : getKey fieldsA "required" = getKey fieldsB "required") :
    requiredMismatch fieldsA keys = requiredMismatch fieldsB keys := by
  rw [requiredMismatch, requiredMismatch, h]

theorem getKey_addAP_ne (fields : List (String × JSON)) (k : String)
    (hk : k ≠ "additionalProperties") :
    getKey (if hasKey fields "additionalProperties" = true then fields
      else setKey fields "additionalProperties" (.bool false)) k = getKey fields k := by
  split
  · rfl
  · exact getKey_setKey_ne _ _ _ _ (Ne.symm hk)

theorem hasKey_addAP (fields : List (String × JSON)) :
    hasKey (if hasKey fields "additionalProperties" = true then fields
      else setKey fields "additionalProperties" (.bool false)) "additionalProperties" =
      true := by
  split
  · rename_i hh
    exact hh
  · simp [hasKey, getKey_setKey_self]

theorem ensure_pass2_object
    (fieldsX props1 : List (String × JSON))
    (hTy : getKey fieldsX "type" = some (.str "object"))
    (hAp : hasKey fieldsX "additionalProperties" = true)
    (hPr : getKey fieldsX "properties" = some (.obj props1))
    (hRm : requiredMismatch fieldsX (props1.map Prod.fst) = some false)
    (hEp : ensureProps props1 = some props1) :
    ensure_schema_defaults (.obj fieldsX) = some (.obj fieldsX) := by
  rw [ensure_schema_defaults]
  split
  · simp only
    split
    · rename_i props2 heqp2
      rw [hPr] at heqp2
      have hpp : props1 = props2 := by simpa using heqp2
      subst hpp
      simp only [hRm]
      simp only [hEp]
      simp only [hAp, Bool.false_eq_true, if_false, eq_self_iff_true, if_true,
        Option.some.injEq]
      rw [setKey_eq_self _ _ _ hPr]
    · rename_i hno
      exact absurd hPr (hno props1)
  · rename_i heq2
    rw [hTy] at heq2
    simp at heq2
  · rename_i hno1 hno2
    exact absurd hTy hno1

theorem ensure_pass2_object_noprops
    (fieldsX : List (String × JSON))
    (hTy : getKey fieldsX "type" = some (.str "object"))
    (hAp : hasKey fieldsX "additionalProperties" = true)
    (hPr : ∀ props, getKey fieldsX "properties" = some (.obj props) → False) :
    ensure_schema_defaults (.obj fieldsX) = some (.obj fieldsX) := by
  rw [ensure_schema_defaults]
  split
  · simp only
    simp [hAp]
  · rename_i heq2
    rw [hTy] at heq2
    simp at heq2
  · rename_i hno1 hno2
    exact absurd hTy hno1

theorem ensure_pass2_array
    (fieldsX : List (String × JSON)) (items1 : JSON)
    (hTy : getKey fieldsX "type" = some (.str "array"))
    (hIt : getKey fieldsX "items" = some items1)
    (hi1 : ensure_schema_defaults items1 = some items1) :
    ensure_schema_defaults (.obj fieldsX) = some (.obj fieldsX) := by
  rw [ensure_schema_defaults]
  split
  · rename_i heq2
    rw [hTy] at heq2
    simp at heq2
  · split
    · rename_i items2 heqi2
      rw [hIt] at heqi2
      have hii : items1 = items2 := by simpa using heqi2
      subst hii
      simp only [hi1, Option.some.injEq]
      rw [setKey_eq_self _ _ _ hIt]
    · rename_i heqi2
      simp [hIt] at heqi2
  · rename_i hno1 hno2
    exact absurd hTy hno2

theorem ensure_pass2_other
    (fieldsX : List (String × JSON))
    (hno1 : getKey fieldsX "type" = some (.str "object") → False)
    (hno2 : getKey fieldsX "type" = some (.str "array") → False) :
    ensure_schema_defaults (.obj fieldsX) = some (.obj fieldsX) := by
  rw [ensure_schema_defaults]
  split
  · rename_i heq2
    exact absurd heq2 hno1
  · rename_i heq2
    exact absurd heq2 hno2
  · rfl

theorem ensure_pass2_array_noitems
    (fieldsX : List (String × JSON))
    (hTy : getKey fieldsX "type" = some (.str "array"))
    (hIt : getKey fieldsX "items" = none) :
    ensure_schema_defaults (.obj fieldsX) = some (.obj fieldsX) := by
  rw [ensure_schema_defaults]
  split
  · rename_i heq2
    rw [hTy] at heq2
    simp at heq2
  · split
    · rename_i items2 heqi2
      simp [hIt] at heqi2
    · rfl
  · rename_i hno1 hno2
    exact absurd hTy hno2

theorem ensure_idem_bounded :
    ∀ (n : Nat) (s t : JSON), sizeOf s ≤ n →
      ensure_schema_defaults s = some t → ensure_schema_defaults t = some t := by
  intro n
  induction n with
  | zero =>
    intro s t hsz h
    cases s <;> simp at hsz
    all_goals omega
  | succ n ihn =>
    intro s t hsz h
    cases s with
    | null =>
      simp only [ensure_schema_defaults, Option.some.injEq] at h
      subst h
      simp [ensure_schema_defaults]
    | bool b =>
      simp only [ensure_schema_defaults, Option.some.injEq] at h
      subst h
      simp [ensure_schema_defaults]
    | num m =>
      simp only [ensure_schema_defaults, Option.some.injEq] at h
      subst h
      simp [ensure_schema_defaults]
    | str s0 =>
      simp only [ensure_schema_defaults, Option.some.injEq] at h
      subst h
      simp [ensure_schema_defaults]
    | arr l =>
      simp only [ensure_schema_defaults, Option.some.injEq] at h
      subst h
      simp [ensure_schema_defaults]
    | obj fields =>
      rw [ensure_schema_defaults] at h
      split at h
      rotate_left
      · -- array-typed schema
        rename_i heqA
        split at h
        · rename_i items heqi
          cases he : ensure_schema_defaults items with
          | none => simp only [he] at h; simp at h
          | some items1 =>
            simp only [he, Option.some.injEq] at h
            subst h
            have hIt2 : getKey (setKey fields "items" items1) "items" = some items1 :=
              getKey_setKey_self _ _ _
            have hTy2 : getKey (setKey fields "items" items1) "type" =
                some (.str "array") := by
              rw [getKey_setKey_ne _ _ _ _ (by decide)]
              exact heqA
            have hszi : sizeOf items ≤ n := by
              have h1 := getKey_sizeOf_lt heqi
              have h2 : sizeOf (JSON.obj fields) = 1 + sizeOf fields := by simp
              omega
            exact ensure_pass2_array _ _ hTy2 hIt2 (ihn items items1 hszi he)
        · rename_i heqi
          simp only [Option.some.injEq] at h
          subst h
          exact ensure_pass2_array_noitems _ heqA heqi
      · -- neither object- nor array-typed
        rename_i hno1 hno2
        simp only [Option.some.injEq] at h
        subst h
        exact ensure_pass2_other _ hno1 hno2
      · -- object-typed schema
        rename_i heqO
        simp only at h
        split at h
        · rename_i props heqp
          cases hrm : requiredMismatch fields (props.map Prod.fst) with
          | none => simp only [hrm] at h; simp at h
          | some mismatch =>
            simp only [hrm] at h
            cases hep : ensureProps props with
            | none => simp only [hep] at h; simp at h
            | some props1 =>
              simp only [hep, Option.some.injEq] at h
              subst h
              have hpoint : ∀ k v, (k, v) ∈ props → ∀ t',
                  ensure_schema_defaults v = some t' →
                  ensure_schema_defaults t' = some t' := by
                intro k v hm t' hv
                apply ihn v t' _ hv
                have h1 := getKey_sizeOf_lt heqp
                have h2 := sizeOf_snd_lt_of_mem hm
                have h3 : sizeOf (JSON.obj fields) = 1 + sizeOf fields := by simp
                have h4 : sizeOf (JSON.obj props) = 1 + sizeOf props := by simp
                omega
              have hEp1 : ensureProps props1 = some props1 := ensureProps_idem hpoint hep
              have hkeys : props1.map Prod.fst = props.map Prod.fst := ensureProps_fst hep
              cases mismatch with
              | false =>
                simp only [Bool.false_eq_true, if_false]
                apply ensure_pass2_object
                · rw [getKey_setKey_ne _ _ _ _ (by decide),
                    getKey_addAP_ne fields "type" (by decide)]
                  exact heqO
                · simp only [hasKey]
                  rw [getKey_setKey_ne _ _ _ _ (by decide)]
                  have hap := hasKey_addAP fields
                  simpa [hasKey] using hap
                · exact getKey_setKey_self _ _ _
                · rw [hkeys]
                  have hreqkey : getKey (setKey
                      (if hasKey fields "additionalProperties" = true then fields
                        else setKey fields "additionalProperties" (.bool false))
                      "properties" (.obj props1)) "required" = getKey fields "required" := by
                    rw [getKey_setKey_ne _ _ _ _ (by decide)]
                    exact getKey_addAP_ne fields "required" (by decide)
                  rw [requiredMismatch_congr _ fields _ hreqkey]
                  exact hrm
                · exact hEp1
              | true =>
                rw [if_pos rfl]
                apply ensure_pass2_object
                · rw [getKey_setKey_ne _ _ _ _ (by decide),
                    getKey_setKey_ne _ _ _ _ (by decide),
                    getKey_addAP_ne fields "type" (by decide)]
                  exact heqO
                · simp only [hasKey]
                  rw [getKey_setKey_ne _ _ _ _ (by decide),
                    getKey_setKey_ne _ _ _ _ (by decide)]
                  have hap := hasKey_addAP fields
                  simpa [hasKey] using hap
                · exact getKey_setKey_self _ _ _
                · rw [hkeys]
                  apply requiredMismatch_keysArr
                  rw [getKey_setKey_ne _ _ _ _ (by decide)]
                  exact getKey_setKey_self _ _ _
                · exact hEp1
        · rename_i hnoP
          simp only [Option.some.injEq] at h
          subst h
          apply ensure_pass2_object_noprops
          · rw [getKey_addAP_ne fields "type" (by decide)]
            exact heqO
          · exact hasKey_addAP fields
          · intro props2 hp2
            rw [getKey_addAP_ne fields "properties" (by decide)] at hp2
            exact hnoP props2 hp2

/-- C6 (confirmed): the Schema Normalizer `ensure_schema_defaults` is
idempotent — whenever it maps a schema `s` to a result `t`, running it
again on `t` returns `t` unchanged. -/
theorem c6_normalizer_idempotent (s t : JSON)
    (h : ensure_schema_defaults s = some t) :
    ensure_schema_defaults t = some t :=
  ensure_idem_bounded (sizeOf s) s t le_rfl h

/-- Witness for C6 at a concrete schema: normalizing the already-normalized
object schema returns it unchanged. -/
theorem c6_witness : ensure_schema_defaults outC5w = some outC5w :=
  c6_normalizer_idempotent (.obj fieldsC5w) outC5w
    (by simp [ensure_schema_defaults, fieldsC5w, outC5w, requiredMismatch, getKey,
      hasKey, setKey, ensureProps])
